import Mathlib

/-!
Verification of the multi-modal relevance scoring and retrieval-configuration
subsystem of the semantic-image-search repository, together with the frontend
localStorage helpers (favorites, saved searches) and color utilities present in
the source. Backend scoring components whose code is absent from the
repository are modelled from the spec; rational numbers stand in for floats
where decidability matters, real numbers where vector norms are needed.
-/

namespace ImageSearch

/-- Modelled from the spec: ScoringWeights (spec section 3) with image, text and
metadata weights. The backend construction code is not in the repository; only
the SearchRequest fields in api.ts and the SearchBar defaults declare the
triple. Rationals stand in for floats. -/
structure ScoringWeights where
  image_weight : ℚ
  text_weight : ℚ
  metadata_weight : ℚ
deriving Repr, DecidableEq

/-- Modelled from the spec: construction of ScoringWeights (spec section 3).
The supplied weights are each divided by their sum, which is the identity when
they already sum to 1; a zero sum is an error, modelled as none. -/
def mkScoringWeights (iw tw mw : ℚ) : Option ScoringWeights :=
  let s := iw + tw + mw
  if s = 0 then none
  else some ⟨iw / s, tw / s, mw / s⟩

/-- Clamp a value to the interval from 0 to 1, as spec section 3 requires for
final scores. -/
def clamp01 {α : Type} [LinearOrder α] [Zero α] [One α] (x : α) : α :=
  max 0 (min 1 x)

/-- Modelled from the spec: a Candidate (spec section 3), one retrieval-index
entry; the backend index code is not in the repository. The attribute map is
narrowed to the attributes that scoring and filtering read: color, orientation
and creation date (days, standing in for the date type). -/
structure Candidate (α : Type) where
  identifier : String
  embedding : List α
  color : Option String
  orientation : Option String
  createdAt : Option Nat

/-- Modelled from the spec: a ScoredResult (spec section 3) with the three
component scores and the final fused score. -/
structure ScoredResult (α : Type) where
  candidate : Candidate α
  image_score : α
  text_score : α
  metadata_score : α
  final_score : α

/-- Modelled from the spec: FilterCriteria (spec section 3); every field is
optional and absence means no constraint on that dimension. -/
structure FilterCriteria (α : Type) where
  min_score : Option α
  color : Option String
  orientation : Option String
  date_from : Option Nat
  date_to : Option Nat

/-- Modelled from the spec: the minimum-score criterion of the
ResultFilterPipeline (spec section 4.4) — drop results with
final_score strictly below min_score. -/
def passesMinScore {α : Type} [LinearOrder α] (m : Option α) (r : ScoredResult α) : Bool :=
  match m with
  | none => true
  | some bound => !(decide (r.final_score < bound))

/-- Modelled from the spec: the exact-match color criterion (spec section 4.4). -/
def passesColor {α : Type} (c : Option String) (r : ScoredResult α) : Bool :=
  match c with
  | none => true
  | some col => decide (r.candidate.color = some col)

/-- Modelled from the spec: the exact-match orientation criterion
(spec section 4.4). -/
def passesOrientation {α : Type} (o : Option String) (r : ScoredResult α) : Bool :=
  match o with
  | none => true
  | some ori => decide (r.candidate.orientation = some ori)

/-- Modelled from the spec: the inclusive date-range criterion
(spec section 4.4); an absent bound is unbounded on that side. -/
def passesDateRange {α : Type} (dfrom dto : Option Nat) (r : ScoredResult α) : Bool :=
  (match dfrom with
   | none => true
   | some lo => match r.candidate.createdAt with
     | none => false
     | some d => decide (lo ≤ d)) &&
  (match dto with
   | none => true
   | some hi => match r.candidate.createdAt with
     | none => false
     | some d => decide (d ≤ hi))

/-- Modelled from the spec: the conjunctive filter of the ResultFilterPipeline
(spec section 4.4); the backend code is not in the repository. -/
def filterResults {α : Type} [LinearOrder α]
    (criteria : FilterCriteria α) (results : List (ScoredResult α)) :
    List (ScoredResult α) :=
  results.filter (fun r =>
    passesMinScore criteria.min_score r &&
    passesColor criteria.color r &&
    passesOrientation criteria.orientation r &&
    passesDateRange criteria.date_from criteria.date_to r)

/-- Modelled from the spec: the ranking order of the ResultFilterPipeline sort
(spec section 4.4) — descending by final score, ties broken by candidate
identifier ascending. -/
def rankLE {α : Type} [LinearOrder α] (a b : ScoredResult α) : Prop :=
  b.final_score < a.final_score ∨
    (a.final_score = b.final_score ∧ a.candidate.identifier ≤ b.candidate.identifier)

instance {α : Type} [LinearOrder α] (a b : ScoredResult α) : Decidable (rankLE a b) := by
  unfold rankLE
  infer_instance

instance {α : Type} [LinearOrder α] : IsTotal (ScoredResult α) rankLE where
  total a b := by
    rcases lt_trichotomy a.final_score b.final_score with h | h | h
    · exact Or.inr (Or.inl h)
    · rcases le_total a.candidate.identifier b.candidate.identifier with hid | hid
      · exact Or.inl (Or.inr ⟨h, hid⟩)
      · exact Or.inr (Or.inr ⟨h.symm, hid⟩)
    · exact Or.inl (Or.inl h)

instance {α : Type} [LinearOrder α] : IsTrans (ScoredResult α) rankLE where
  trans a b c hab hbc := by
    rcases hab with hab | ⟨hab, haid⟩
    · rcases hbc with hbc | ⟨hbc, _⟩
      · exact Or.inl (hbc.trans hab)
      · exact Or.inl (hbc ▸ hab)
    · rcases hbc with hbc | ⟨hbc, hbid⟩
      · exact Or.inl (hab ▸ hbc)
      · exact Or.inr ⟨hab.trans hbc, haid.trans hbid⟩

/-- Modelled from the spec: the sort of the ResultFilterPipeline
(spec section 4.4); the backend code is not in the repository. -/
def sortResults {α : Type} [LinearOrder α] (results : List (ScoredResult α)) :
    List (ScoredResult α) :=
  results.insertionSort rankLE

/-- Modelled from the spec: the accuracy, speed and memory objectives of the
IndexStrategySelector (spec section 4.5). -/
inductive IndexObjective
  | Accuracy
  | Speed
  | Memory
deriving Repr, DecidableEq

/-- Modelled from the spec: the three index algorithm families
(spec section 3). -/
inductive IndexFamily
  | HNSW
  | IVFFlat
  | PQ
deriving Repr, DecidableEq

/-- Modelled from the spec: an IndexProfile (spec section 3) — algorithm
family, dimension and build parameters. -/
structure IndexProfile where
  family : IndexFamily
  dimension : Nat
  build_params : List (String × Nat)
deriving Repr, DecidableEq

/-- Modelled from the spec: the high-accuracy HNSW shape with the parameters
the backend README lists (M 32, ef_construction 400). -/
def hnswProfile (dim : Nat) : IndexProfile :=
  ⟨IndexFamily.HNSW, dim, [("M", 32), ("ef_construction", 400)]⟩

/-- Modelled from the spec: the high-speed IVF-Flat shape with the parameters
the backend README lists (nlist 2048, nprobe 5). -/
def ivfFlatProfile (dim : Nat) : IndexProfile :=
  ⟨IndexFamily.IVFFlat, dim, [("nlist", 2048), ("nprobe", 5)]⟩

/-- Modelled from the spec: the memory-efficient PQ shape with compression
parameters sized to the dimension. -/
def pqProfile (dim : Nat) : IndexProfile :=
  ⟨IndexFamily.PQ, dim, [("m_subquantizers", dim / 64), ("bits", 8)]⟩

/-- Modelled from the spec: IndexStrategySelector.selectProfile
(spec section 4.5) — the three in-band rules, with any other combination
falling back to the profile of the nearest corpus-size band; the backend code
is not in the repository. -/
def selectProfile (corpusSize : Nat) (objective : IndexObjective) (dimension : Nat) :
    IndexProfile :=
  if corpusSize < 100000 ∧ objective = IndexObjective.Accuracy then
    hnswProfile dimension
  else if 100000 ≤ corpusSize ∧ corpusSize < 1000000 ∧ objective = IndexObjective.Speed then
    ivfFlatProfile dimension
  else if 1000000 ≤ corpusSize ∧ objective = IndexObjective.Memory then
    pqProfile dimension
  else if corpusSize < 100000 then hnswProfile dimension
  else if corpusSize < 1000000 then ivfFlatProfile dimension
  else pqProfile dimension

/-- A search result as the frontend api.ts declares it: a nullable id plus its
score; the remaining metadata fields are carried opaquely by the favorites
helpers and are not read by them, so they are elided here. -/
structure SearchResult where
  id : Option String
  score : ℚ
deriving Repr, DecidableEq

/-- A stored favorite entry, as the frontend favorites module declares it. -/
structure FavoriteImage where
  id : String
  result : SearchResult
  savedAt : String
deriving Repr, DecidableEq

/-- addToFavorites from the frontend favorites module as a pure function of the
stored list; the Date.now timestamp and the ISO time string become explicit
arguments. A falsy result id (null or empty) falls back to a timestamp-based
id; if no stored entry has the same result id, the new entry is prepended and
the list truncated to MAX_FAVORITES entries (100). -/
def addToFavorites (favorites : List FavoriteImage) (result : SearchResult)
    (nowIso : String) (nowMs : Nat) : List FavoriteImage :=
  if favorites.any (fun fav => decide (fav.result.id = result.id)) then favorites
  else
    let newId : String :=
      match result.id with
      | some s => if s = "" then "fav-" ++ toString nowMs else s
      | none => "fav-" ++ toString nowMs
    (({ id := newId, result := result, savedAt := nowIso } : FavoriteImage) :: favorites).take 100

/-- The optional filters of a saved search, as the frontend preferences module
declares them. -/
structure SavedSearchFilters where
  color : Option String
  orientation : Option String
  minScore : Option ℚ
deriving Repr, DecidableEq

/-- A saved search, as the frontend preferences module declares it. -/
structure SavedSearch where
  id : String
  name : String
  query : String
  filters : Option SavedSearchFilters
  icon : Option String
  shortcutKey : Option Nat
  createdAt : String
  lastUsed : Option String
  useCount : Nat
deriving Repr, DecidableEq

/-- The first phase of assignShortcutKey: remove the shortcut key from every
saved search currently holding it. -/
def clearShortcut (key : Nat) (searches : List SavedSearch) : List SavedSearch :=
  searches.map (fun s =>
    if s.shortcutKey = some key then { s with shortcutKey := none } else s)

/-- The second phase of assignShortcutKey: the TS code looks up the first
search with the given id by find and mutates it, so only the first match
receives the key. -/
def setShortcutFirst (searchId : String) (key : Nat) :
    List SavedSearch → List SavedSearch
  | [] => []
  | s :: rest =>
    if s.id = searchId then { s with shortcutKey := some key } :: rest
    else s :: setShortcutFirst searchId key rest

/-- assignShortcutKey from the frontend preferences module as a pure function
on the stored list: first clear the key from every search holding it, then set
it on the first search whose id matches. -/
def assignShortcutKey (searches : List SavedSearch) (searchId : String) (key : Nat) :
    List SavedSearch :=
  setShortcutFirst searchId key (clearShortcut key searches)

/-- All fields of a saved search other than the shortcut key agree. -/
def sameExceptShortcut (s t : SavedSearch) : Prop :=
  t.id = s.id ∧ t.name = s.name ∧ t.query = s.query ∧ t.filters = s.filters ∧
    t.icon = s.icon ∧ t.createdAt = s.createdAt ∧ t.lastUsed = s.lastUsed ∧
    t.useCount = s.useCount

/-- Hex digit test matching the character class of the hexToRgb regex with its
case-insensitive flag. -/
def isHexDigitChar (c : Char) : Bool :=
  (decide ('0' ≤ c) && decide (c ≤ '9')) ||
  (decide ('a' ≤ c) && decide (c ≤ 'f')) ||
  (decide ('A' ≤ c) && decide (c ≤ 'F'))

/-- Value of one hex digit, as parseInt with radix 16 reads it. -/
def hexDigitVal (c : Char) : Nat :=
  if decide ('0' ≤ c) && decide (c ≤ '9') then c.toNat - 48
  else if decide ('a' ≤ c) && decide (c ≤ 'f') then c.toNat - 87
  else if decide ('A' ≤ c) && decide (c ≤ 'F') then c.toNat - 55
  else 0

/-- An RGB triple of byte values, as hexToRgb in colorExtraction.ts returns. -/
structure RGB where
  r : Nat
  g : Nat
  b : Nat
deriving Repr, DecidableEq

/-- hexToRgb from colorExtraction.ts: the regex accepts an optional leading
hash followed by exactly six hex digits (case-insensitive) and parses three
two-digit components; anything else yields null, modelled as none. -/
def hexToRgb (hex : String) : Option RGB :=
  let cs :=
    match hex.toList with
    | '#' :: rest => rest
    | other => other
  match cs with
  | [c1, c2, c3, c4, c5, c6] =>
    if isHexDigitChar c1 && isHexDigitChar c2 && isHexDigitChar c3 &&
        isHexDigitChar c4 && isHexDigitChar c5 && isHexDigitChar c6 then
      some ⟨16 * hexDigitVal c1 + hexDigitVal c2,
            16 * hexDigitVal c3 + hexDigitVal c4,
            16 * hexDigitVal c5 + hexDigitVal c6⟩
    else none
  | _ => none

/-- getColorName from colorExtraction.ts: names a hex color by channel
dominance, with Unknown as the fallback for input the regex rejects. -/
def getColorName (hex : String) : String :=
  match hexToRgb hex with
  | none => "Unknown"
  | some rgb =>
    let mx := max rgb.r (max rgb.g rgb.b)
    let mn := min rgb.r (min rgb.g rgb.b)
    let diff := mx - mn
    if diff < 30 then
      if mx < 50 then "Black"
      else if mx < 130 then "Gray"
      else if mx < 200 then "Light Gray"
      else "White"
    else if rgb.r = mx then
      if rgb.g > rgb.b then (if rgb.g > 150 then "Yellow" else "Orange") else "Red"
    else if rgb.g = mx then
      (if rgb.b > rgb.r then "Cyan" else "Green")
    else if rgb.r > rgb.g then "Magenta"
    else "Blue"

/-- Modelled from the spec: dot product of two embeddings, the numerator of
cosine similarity (spec section 4.1). -/
noncomputable def dot (a b : List ℝ) : ℝ :=
  (List.zipWith (fun x y => x * y) a b).sum

/-- Modelled from the spec: the L2 norm of an embedding (spec section 4.1). -/
noncomputable def l2norm (v : List ℝ) : ℝ :=
  Real.sqrt (dot v v)

/-- Modelled from the spec: cosineSimilarity (spec section 4.1) — fails on a
dimension mismatch or a degenerate zero-norm vector, modelled as none. -/
noncomputable def cosineSimilarity (a b : List ℝ) : Option ℝ :=
  if a.length = b.length then
    if l2norm a = 0 ∨ l2norm b = 0 then none
    else some (dot a b / (l2norm a * l2norm b))
  else none

/-- Pointwise scaling of an embedding by a scalar. -/
noncomputable def scale (c : ℝ) (v : List ℝ) : List ℝ :=
  v.map (fun x => c * x)

/-- Pointwise sum of two embeddings. -/
noncomputable def vecAdd (a b : List ℝ) : List ℝ :=
  List.zipWith (fun x y => x + y) a b

/-- Modelled from the spec: rescaling to unit length (spec section 4.2). -/
noncomputable def normalizeVec (v : List ℝ) : List ℝ :=
  scale (1 / l2norm v) v

/-- Modelled from the spec: the three query modes of a QueryContext
(spec section 3). -/
inductive QueryMode
  | TextOnly
  | ImageOnly
  | Hybrid
deriving Repr, DecidableEq

/-- Modelled from the spec: a QueryContext (spec section 3) — mode, optional
text and image embeddings, and the hybrid blend weights. -/
structure QueryContext where
  mode : QueryMode
  text_embedding : Option (List ℝ)
  image_embedding : Option (List ℝ)
  hybrid_text_weight : ℚ
  hybrid_image_weight : ℚ

/-- Modelled from the spec: the failure of QueryVectorBuilder
(spec section 4.2). -/
inductive BuildError
  | InvalidQueryContext
deriving Repr, DecidableEq

/-- Modelled from the spec: hybrid weights are valid when nonnegative and
summing to 1 within tolerance one in a million (spec section 4.2). -/
def hybridWeightsValid (ctx : QueryContext) : Prop :=
  0 ≤ ctx.hybrid_text_weight ∧ 0 ≤ ctx.hybrid_image_weight ∧
    |ctx.hybrid_text_weight + ctx.hybrid_image_weight - 1| ≤ 1 / 1000000

instance (ctx : QueryContext) : Decidable (hybridWeightsValid ctx) := by
  unfold hybridWeightsValid
  infer_instance

/-- Modelled from the spec: the weighted sum of the two embeddings of a hybrid
query (spec section 4.2). -/
noncomputable def hybridCombination (ctx : QueryContext) (t i : List ℝ) : List ℝ :=
  vecAdd (scale ((ctx.hybrid_text_weight : ℝ)) t) (scale ((ctx.hybrid_image_weight : ℝ)) i)

namespace QueryVectorBuilder

/-- Modelled from the spec: QueryVectorBuilder.build (spec section 4.2) — the
three-outcome state machine over the query mode; the backend code is not in
the repository. -/
noncomputable def build (ctx : QueryContext) : Except BuildError (List ℝ) :=
  match ctx.mode with
  | QueryMode.TextOnly =>
    match ctx.text_embedding with
    | some t => Except.ok t
    | none => Except.error BuildError.InvalidQueryContext
  | QueryMode.ImageOnly =>
    match ctx.image_embedding with
    | some i => Except.ok i
    | none => Except.error BuildError.InvalidQueryContext
  | QueryMode.Hybrid =>
    match ctx.text_embedding, ctx.image_embedding with
    | some t, some i =>
      if hybridWeightsValid ctx then Except.ok (normalizeVec (hybridCombination ctx t i))
      else Except.error BuildError.InvalidQueryContext
    | _, _ => Except.error BuildError.InvalidQueryContext

end QueryVectorBuilder

/-- Modelled from the spec: colorSimilarity (spec section 4.1) — 1 on an exact
bucket match, 0 otherwise; the heuristic near-bucket partial score is left at
0, which the spec leaves open as an example. -/
def colorSimilarity (candidateColor : Option String) (targetBucket : String) : ℚ :=
  if candidateColor = some targetBucket then 1 else 0

/-- Modelled from the spec: the sum of the weights of the contributing
components (spec section 4.3) — a modality absent from the query is excluded. -/
def includedWeightSum (w : ScoringWeights) (hasImage hasText hasColor : Bool) : ℚ :=
  (if hasImage then w.image_weight else 0) +
  (if hasText then w.text_weight else 0) +
  (if hasColor then w.metadata_weight else 0)

/-- Modelled from the spec: scoring of one candidate by ScoreFusion
(spec section 4.3); the backend code is not in the repository. A component
with no signal contributes 0 and its weight is excluded from normalization;
cosine failures (dimension mismatch, zero norm) skip the candidate, modelled
as none; the final score is the renormalized weighted sum clamped to the unit
interval. -/
noncomputable def scoreOne (ctx : QueryContext) (w : ScoringWeights)
    (targetColor : Option String) (c : Candidate ℝ) : Option (ScoredResult ℝ) :=
  let imageScoreOpt : Option ℝ :=
    match ctx.image_embedding with
    | some q => cosineSimilarity c.embedding q
    | none => some 0
  let textScoreOpt : Option ℝ :=
    match ctx.text_embedding with
    | some q => cosineSimilarity c.embedding q
    | none => some 0
  match imageScoreOpt, textScoreOpt with
  | some imageScore, some textScore =>
    let metadataScore : ℚ :=
      match targetColor with
      | some tc => colorSimilarity c.color tc
      | none => 0
    let s := includedWeightSum w ctx.image_embedding.isSome ctx.text_embedding.isSome
      targetColor.isSome
    let eiw : ℚ := if ctx.image_embedding.isSome then w.image_weight / s else 0
    let etw : ℚ := if ctx.text_embedding.isSome then w.text_weight / s else 0
    let emw : ℚ := if targetColor.isSome then w.metadata_weight / s else 0
    some { candidate := c
           image_score := imageScore
           text_score := textScore
           metadata_score := ((metadataScore : ℚ) : ℝ)
           final_score := clamp01 (((eiw : ℚ) : ℝ) * imageScore + ((etw : ℚ) : ℝ) * textScore +
             ((emw : ℚ) : ℝ) * ((metadataScore : ℚ) : ℝ)) }
  | _, _ => none

/-- Modelled from the spec: ScoreFusion.fuse (spec section 4.3) over a
candidate list, skipping candidates whose similarity cannot be computed. -/
noncomputable def fuse (candidates : List (Candidate ℝ)) (ctx : QueryContext)
    (w : ScoringWeights) (targetColor : Option String) : List (ScoredResult ℝ) :=
  candidates.filterMap (scoreOne ctx w targetColor)



/-- Claim C1: for every supplied ScoringWeights triple whose sum is nonzero,
construction renormalizes each weight by dividing it by the sum, after which
the three weights sum to exactly 1 (hence within tolerance one in a million);
construction fails exactly when the supplied sum is zero. -/
theorem mkScoringWeights_spec (iw tw mw : ℚ) :
    (mkScoringWeights iw tw mw = none ↔ iw + tw + mw = 0) ∧
    (iw + tw + mw ≠ 0 →
      mkScoringWeights iw tw mw =
        some ⟨iw / (iw + tw + mw), tw / (iw + tw + mw), mw / (iw + tw + mw)⟩ ∧
      iw / (iw + tw + mw) + tw / (iw + tw + mw) + mw / (iw + tw + mw) = 1 ∧
      |iw / (iw + tw + mw) + tw / (iw + tw + mw) + mw / (iw + tw + mw) - 1| ≤ 1 / 1000000) := by
  constructor
  · by_cases h0 : iw + tw + mw = 0 <;> simp [mkScoringWeights, h0]
  · intro h
    have hsum : iw / (iw + tw + mw) + tw / (iw + tw + mw) + mw / (iw + tw + mw) = 1 := by
      rw [div_add_div_same, div_add_div_same, div_self h]
    refine ⟨?_, hsum, ?_⟩
    · simp [mkScoringWeights, h]
    · rw [hsum]
      norm_num

theorem mkScoringWeights_spec_witness :
    (mkScoringWeights (3/10) (3/10) (3/10) = none ↔ (3:ℚ)/10 + 3/10 + 3/10 = 0) ∧
    mkScoringWeights (3/10) (3/10) (3/10) =
      some ⟨(3/10) / ((3:ℚ)/10 + 3/10 + 3/10), (3/10) / ((3:ℚ)/10 + 3/10 + 3/10),
        (3/10) / ((3:ℚ)/10 + 3/10 + 3/10)⟩ ∧
    (3/10) / ((3:ℚ)/10 + 3/10 + 3/10) + (3/10) / ((3:ℚ)/10 + 3/10 + 3/10) +
      (3/10) / ((3:ℚ)/10 + 3/10 + 3/10) = 1 :=
  ⟨(mkScoringWeights_spec (3/10) (3/10) (3/10)).1,
   ((mkScoringWeights_spec (3/10) (3/10) (3/10)).2 (by norm_num)).1,
   ((mkScoringWeights_spec (3/10) (3/10) (3/10)).2 (by norm_num)).2.1⟩

end ImageSearch

namespace ImageSearch

/-- Claim C4: filtering by minimum score is monotonic — with the other
criteria fixed, raising the min score bound from m1 to m2 never increases the
number of surviving results, where the filter drops exactly the results with
final score strictly below the bound. -/
theorem filterResults_min_score_monotone (crit : FilterCriteria ℚ) (m1 m2 : ℚ)
    (results : List (ScoredResult ℚ)) (h : m1 ≤ m2) :
    (filterResults { crit with min_score := some m2 } results).length ≤
      (filterResults { crit with min_score := some m1 } results).length := by
  apply List.Sublist.length_le
  apply List.monotone_filter_right
  intro r hr
  simp only [Bool.and_eq_true, passesMinScore, Bool.not_eq_true', decide_eq_false_iff_not] at hr ⊢
  exact ⟨⟨⟨fun hlt => hr.1.1.1 (hlt.trans_le h), hr.1.1.2⟩, hr.1.2⟩, hr.2⟩

theorem filterResults_min_score_monotone_witness :
    (filterResults (⟨some 1, none, none, none, none⟩ : FilterCriteria ℚ)
      [⟨⟨"a", [], none, none, none⟩, 0, 0, 0, 0⟩, ⟨⟨"b", [], none, none, none⟩, 0, 0, 0, 2⟩]).length ≤
    (filterResults (⟨some 0, none, none, none, none⟩ : FilterCriteria ℚ)
      [⟨⟨"a", [], none, none, none⟩, 0, 0, 0, 0⟩, ⟨⟨"b", [], none, none, none⟩, 0, 0, 0, 2⟩]).length :=
  filterResults_min_score_monotone
    (⟨none, none, none, none, none⟩ : FilterCriteria ℚ) 0 1 _ (by decide)

/-- Claim C5: the sort of the ResultFilterPipeline permutes its input into an
order that is pairwise descending by final score with ties broken by candidate
identifier ascending; being a pure function of its input, it is reproducible
across runs. -/
theorem sortResults_orders (results : List (ScoredResult ℚ)) :
    (sortResults results).Perm results ∧
    List.Pairwise rankLE (sortResults results) ∧
    ∀ a b : ScoredResult ℚ, rankLE a b ↔
      (b.final_score < a.final_score ∨
        (a.final_score = b.final_score ∧
          a.candidate.identifier ≤ b.candidate.identifier)) :=
  ⟨List.perm_insertionSort rankLE results,
   List.sorted_insertionSort rankLE results,
   fun _ _ => Iff.rfl⟩

/-- Claim C6: selectProfile is total — for every corpus size, objective and
dimension it returns one of the three valid profile shapes carrying the given
dimension, and in particular the accuracy band at 50000 yields HNSW while the
memory band at 5000000 yields PQ. -/
theorem selectProfile_total (corpusSize : Nat) (objective : IndexObjective) (dimension : Nat) :
    ((selectProfile corpusSize objective dimension).dimension = dimension ∧
      (selectProfile corpusSize objective dimension = hnswProfile dimension ∨
        selectProfile corpusSize objective dimension = ivfFlatProfile dimension ∨
        selectProfile corpusSize objective dimension = pqProfile dimension)) ∧
    (selectProfile 50000 IndexObjective.Accuracy 512).family = IndexFamily.HNSW ∧
    (selectProfile 5000000 IndexObjective.Memory 512).family = IndexFamily.PQ := by
  refine ⟨?_, by decide, by decide⟩
  unfold selectProfile
  split_ifs <;> simp [hnswProfile, ivfFlatProfile, pqProfile]

/-- Claim C8: the color-classification primitive is deterministic and pure —
equal inputs give equal outputs, there is no external state — and it is total
over all strings: input the hex parser rejects maps to the Unknown fallback,
and every input maps to one of the twelve defined names. -/
theorem getColorName_pure_total (s : String) :
    getColorName s = getColorName s ∧
    (hexToRgb s = none → getColorName s = "Unknown") ∧
    getColorName s ∈ ["Unknown", "Black", "Gray", "Light Gray", "White", "Yellow",
      "Orange", "Red", "Cyan", "Green", "Magenta", "Blue"] := by
  refine ⟨rfl, ?_, ?_⟩
  · intro h
    simp [getColorName, h]
  · unfold getColorName
    cases hOpt : hexToRgb s with
    | none => simp
    | some rgb =>
      dsimp only
      split_ifs <;> simp

theorem getColorName_pure_total_witness :
    hexToRgb "not-a-color" = none ∧ getColorName "not-a-color" = "Unknown" :=
  ⟨by decide, (getColorName_pure_total "not-a-color").2.1 (by decide)⟩

/-- Claim C9: addToFavorites is idempotent on result identity — if the stored
list already holds an entry with the same result id the call leaves the list
unchanged, calling twice equals calling once, and a list within the 100-entry
bound stays within it. -/
theorem addToFavorites_idempotent (favorites : List FavoriteImage) (r : SearchResult)
    (n1 n2 : String) (m1 m2 : Nat) :
    ((∃ fav ∈ favorites, fav.result.id = r.id) →
      addToFavorites favorites r n1 m1 = favorites) ∧
    addToFavorites (addToFavorites favorites r n1 m1) r n2 m2 =
      addToFavorites favorites r n1 m1 ∧
    (favorites.length ≤ 100 → (addToFavorites favorites r n1 m1).length ≤ 100) := by
  have hiff : favorites.any (fun fav => decide (fav.result.id = r.id)) = true ↔
      ∃ fav ∈ favorites, fav.result.id = r.id := by
    simp [List.any_eq_true]
  refine ⟨?_, ?_, ?_⟩
  · intro h
    unfold addToFavorites
    rw [if_pos (hiff.mpr h)]
  · by_cases hany : favorites.any (fun fav => decide (fav.result.id = r.id)) = true
    · simp [addToFavorites, hany]
    · have h1 : addToFavorites favorites r n1 m1 =
          (({ id := match r.id with
                | some s => if s = "" then "fav-" ++ toString m1 else s
                | none => "fav-" ++ toString m1
              result := r
              savedAt := n1 } : FavoriteImage) :: favorites).take 100 := by
        unfold addToFavorites
        rw [if_neg hany]
      rw [h1]
      unfold addToFavorites
      rw [if_pos]
      rw [show (100 : Nat) = 99 + 1 from rfl, List.take_succ_cons, List.any_cons]
      simp
  · intro hlen
    by_cases hany : favorites.any (fun fav => decide (fav.result.id = r.id)) = true
    · simp only [addToFavorites, hany, if_true, ite_true, if_pos]
      exact hlen
    · unfold addToFavorites
      rw [if_neg hany]
      rw [List.length_take]
      exact min_le_left _ _

theorem addToFavorites_idempotent_witness :
    (addToFavorites [⟨"a", ⟨some "a", 1⟩, "t0"⟩] ⟨some "a", 1⟩ "t1" 1 =
      [⟨"a", ⟨some "a", 1⟩, "t0"⟩]) ∧
    addToFavorites (addToFavorites [⟨"a", ⟨some "a", 1⟩, "t0"⟩] ⟨some "a", 1⟩ "t1" 1)
        ⟨some "a", 1⟩ "t2" 2 =
      addToFavorites [⟨"a", ⟨some "a", 1⟩, "t0"⟩] ⟨some "a", 1⟩ "t1" 1 ∧
    (addToFavorites [⟨"a", ⟨some "a", 1⟩, "t0"⟩] ⟨some "a", 1⟩ "t1" 1).length ≤ 100 :=
  ⟨(addToFavorites_idempotent [⟨"a", ⟨some "a", 1⟩, "t0"⟩] ⟨some "a", 1⟩ "t1" "t2" 1 2).1
      (by decide),
   (addToFavorites_idempotent [⟨"a", ⟨some "a", 1⟩, "t0"⟩] ⟨some "a", 1⟩ "t1" "t2" 1 2).2.1,
   (addToFavorites_idempotent [⟨"a", ⟨some "a", 1⟩, "t0"⟩] ⟨some "a", 1⟩ "t1" "t2" 1 2).2.2
      (by decide)⟩

theorem countP_clearShortcut (key : Nat) (l : List SavedSearch) :
    (clearShortcut key l).countP (fun s => decide (s.shortcutKey = some key)) = 0 := by
  unfold clearShortcut
  induction l with
  | nil => rfl
  | cons s rest ih =>
    rw [List.map_cons, List.countP_cons, ih]
    by_cases h : s.shortcutKey = some key
    · simp [h]
    · simp [h]

theorem countP_setShortcutFirst (searchId : String) (key : Nat) (l : List SavedSearch)
    (h : l.countP (fun s => decide (s.shortcutKey = some key)) = 0) :
    (setShortcutFirst searchId key l).countP
      (fun s => decide (s.shortcutKey = some key)) ≤ 1 := by
  induction l with
  | nil => simp [setShortcutFirst]
  | cons s rest ih =>
    rw [List.countP_cons] at h
    have hrest : rest.countP (fun s => decide (s.shortcutKey = some key)) = 0 := by omega
    have hs : s.shortcutKey ≠ some key := by
      intro hdec
      simp [hdec] at h
    by_cases hid : s.id = searchId
    · simp only [setShortcutFirst, if_pos hid, List.countP_cons, hrest]
      simp
    · simp only [setShortcutFirst, if_neg hid, List.countP_cons]
      have hle := ih hrest
      simp only [hs, decide_eq_false, if_neg]
      simp [hs]
      omega

theorem forall₂_clearShortcut (key : Nat) (l : List SavedSearch) :
    List.Forall₂ sameExceptShortcut l (clearShortcut key l) := by
  induction l with
  | nil => exact List.Forall₂.nil
  | cons s rest ih =>
    refine List.Forall₂.cons ?_ ih
    by_cases h : s.shortcutKey = some key <;>
      simp [sameExceptShortcut, h]

theorem forall₂_setShortcutFirst (searchId : String) (key : Nat) (l : List SavedSearch) :
    List.Forall₂ sameExceptShortcut l (setShortcutFirst searchId key l) := by
  induction l with
  | nil => exact List.Forall₂.nil
  | cons s rest ih =>
    by_cases h : s.id = searchId
    · simp only [setShortcutFirst, if_pos h]
      refine List.Forall₂.cons (by simp [sameExceptShortcut]) ?_
      exact List.forall₂_same.mpr (fun x _ => by simp [sameExceptShortcut])
    · simp only [setShortcutFirst, if_neg h]
      exact List.Forall₂.cons (by simp [sameExceptShortcut]) ih

theorem forall₂_sameExceptShortcut_trans {l m n : List SavedSearch}
    (h1 : List.Forall₂ sameExceptShortcut l m) (h2 : List.Forall₂ sameExceptShortcut m n) :
    List.Forall₂ sameExceptShortcut l n := by
  induction h1 generalizing n with
  | nil =>
    cases h2
    exact List.Forall₂.nil
  | cons hab hrest ih =>
    cases h2 with
    | cons hbc hrest2 =>
      refine List.Forall₂.cons ?_ (ih hrest2)
      obtain ⟨e1, e2, e3, e4, e5, e6, e7, e8⟩ := hab
      obtain ⟨f1, f2, f3, f4, f5, f6, f7, f8⟩ := hbc
      exact ⟨f1.trans e1, f2.trans e2, f3.trans e3, f4.trans e4, f5.trans e5,
        f6.trans e6, f7.trans e7, f8.trans e8⟩

/-- Claim C10: after assignShortcutKey, at most one saved search holds the
key (the operation clears it from every search before assigning it to the
first search with the target id), and every field other than the shortcut key
of every stored search is left unchanged. -/
theorem assignShortcutKey_unique (searches : List SavedSearch) (searchId : String) (key : Nat) :
    (assignShortcutKey searches searchId key).countP
        (fun s => decide (s.shortcutKey = some key)) ≤ 1 ∧
    List.Forall₂ sameExceptShortcut searches (assignShortcutKey searches searchId key) := by
  constructor
  · exact countP_setShortcutFirst searchId key _ (countP_clearShortcut key searches)
  · exact forall₂_sameExceptShortcut_trans (forall₂_clearShortcut key searches)
      (forall₂_setShortcutFirst searchId key _)

theorem dot_self_nonneg (v : List ℝ) : 0 ≤ dot v v := by
  induction v with
  | nil => simp [dot]
  | cons x rest ih =>
    have hsplit : dot (x :: rest) (x :: rest) = x * x + dot rest rest := by
      simp [dot]
    rw [hsplit]
    have hx := mul_self_nonneg x
    linarith

theorem dot_self_pos (v : List ℝ) (x : ℝ) (hx : x ∈ v) (hx0 : x ≠ 0) : 0 < dot v v := by
  induction v with
  | nil => cases hx
  | cons y rest ih =>
    have hsplit : dot (y :: rest) (y :: rest) = y * y + dot rest rest := by
      simp [dot]
    rw [hsplit]
    rcases List.mem_cons.mp hx with h | h
    · have h1 : 0 < y * y := h ▸ mul_self_pos.mpr hx0
      have h2 := dot_self_nonneg rest
      linarith
    · have h1 := ih h
      have h2 := mul_self_nonneg y
      linarith

theorem dot_scale_scale (c : ℝ) (v : List ℝ) :
    dot (scale c v) (scale c v) = c ^ 2 * dot v v := by
  induction v with
  | nil => simp [dot, scale]
  | cons x rest ih =>
    have h1 : dot (scale c (x :: rest)) (scale c (x :: rest)) =
        (c * x) * (c * x) + dot (scale c rest) (scale c rest) := by
      simp [dot, scale]
    have h2 : dot (x :: rest) (x :: rest) = x * x + dot rest rest := by
      simp [dot]
    rw [h1, h2, ih]
    ring

theorem l2norm_scale (c : ℝ) (v : List ℝ) : l2norm (scale c v) = |c| * l2norm v := by
  unfold l2norm
  rw [dot_scale_scale, Real.sqrt_mul (sq_nonneg c), Real.sqrt_sq_eq_abs]

theorem l2norm_pos (v : List ℝ) (x : ℝ) (hx : x ∈ v) (hx0 : x ≠ 0) : 0 < l2norm v :=
  Real.sqrt_pos.mpr (dot_self_pos v x hx hx0)

theorem l2norm_normalizeVec (v : List ℝ) (h : 0 < l2norm v) :
    l2norm (normalizeVec v) = 1 := by
  unfold normalizeVec
  rw [l2norm_scale]
  rw [abs_of_pos (by positivity)]
  field_simp

/-- Claim C7: for every Hybrid query context with valid weights and two
distinct unit-length embeddings whose weighted sum is nonzero (witnessed by a
nonzero coordinate), build returns the normalized weighted sum of the two
embeddings, and that output vector has unit norm. -/
theorem build_hybrid_unit_norm (ctx : QueryContext) (t i : List ℝ)
    (hmode : ctx.mode = QueryMode.Hybrid)
    (ht : ctx.text_embedding = some t)
    (hi : ctx.image_embedding = some i)
    (hw : hybridWeightsValid ctx)
    (_hdistinct : t ≠ i)
    (_hut : l2norm t = 1) (_hui : l2norm i = 1)
    (x : ℝ) (hx : x ∈ hybridCombination ctx t i) (hx0 : x ≠ 0) :
    QueryVectorBuilder.build ctx = Except.ok (normalizeVec (hybridCombination ctx t i)) ∧
    l2norm (normalizeVec (hybridCombination ctx t i)) = 1 := by
  constructor
  · unfold QueryVectorBuilder.build
    rw [hmode]
    simp only [ht, hi]
    rw [if_pos hw]
  · exact l2norm_normalizeVec _ (l2norm_pos _ x hx hx0)

theorem build_hybrid_unit_norm_witness :
    QueryVectorBuilder.build
        (⟨QueryMode.Hybrid, some [1, 0], some [0, 1], 1/2, 1/2⟩ : QueryContext) =
      Except.ok (normalizeVec (hybridCombination
        (⟨QueryMode.Hybrid, some [1, 0], some [0, 1], 1/2, 1/2⟩ : QueryContext) [1, 0] [0, 1])) ∧
    l2norm (normalizeVec (hybridCombination
      (⟨QueryMode.Hybrid, some [1, 0], some [0, 1], 1/2, 1/2⟩ : QueryContext) [1, 0] [0, 1])) = 1 := by
  have hcomb : hybridCombination
      (⟨QueryMode.Hybrid, some [1, 0], some [0, 1], 1/2, 1/2⟩ : QueryContext) [1, 0] [0, 1] =
      [(1 : ℝ)/2 * 1 + 1/2 * 0, 1/2 * 0 + 1/2 * 1] := by
    simp [hybridCombination, vecAdd, scale]
  refine build_hybrid_unit_norm _ [1, 0] [0, 1] rfl rfl rfl ?_ ?_ ?_ ?_
    ((1 : ℝ)/2 * 1 + 1/2 * 0) ?_ (by norm_num)
  · norm_num [hybridWeightsValid]
  · simp
  · simp [l2norm, dot]
  · simp [l2norm, dot]
  · rw [hcomb]
    simp

theorem clamp01_nonneg {α : Type} [LinearOrder α] [Zero α] [One α] (x : α) :
    0 ≤ clamp01 x :=
  le_max_left 0 _

theorem clamp01_le_one {α : Type} [LinearOrder α] [Zero α] [One α]
    (h01 : (0 : α) ≤ 1) (x : α) : clamp01 x ≤ 1 :=
  max_le h01 (min_le_left _ _)

theorem clamp01_of_mem {α : Type} [LinearOrder α] [Zero α] [One α] (x : α)
    (h0 : 0 ≤ x) (h1 : x ≤ 1) : clamp01 x = x := by
  unfold clamp01
  rw [min_eq_right h1, max_eq_right h0]

/-- Claim C2: for every candidate that ScoreFusion scores (which requires its
embedding dimension to match the query vectors), when all three signals are
present and the weights sum to 1, the final score equals the weighted sum of
the three component scores clamped to the unit interval; in particular the
final score always lies in the unit interval. -/
theorem scoreOne_final_clamped (ctx : QueryContext) (w : ScoringWeights) (tc : String)
    (qi qt : List ℝ) (c : Candidate ℝ) (r : ScoredResult ℝ)
    (hqi : ctx.image_embedding = some qi) (hqt : ctx.text_embedding = some qt)
    (hw : w.image_weight + w.text_weight + w.metadata_weight = 1)
    (hr : scoreOne ctx w (some tc) c = some r) :
    r.final_score = clamp01 ((w.image_weight : ℝ) * r.image_score +
      (w.text_weight : ℝ) * r.text_score + (w.metadata_weight : ℝ) * r.metadata_score) ∧
    0 ≤ r.final_score ∧ r.final_score ≤ 1 := by
  simp only [scoreOne, hqi, hqt, Option.isSome_some, if_true, includedWeightSum] at hr
  cases his : cosineSimilarity c.embedding qi with
  | none =>
    rw [his] at hr
    cases hr
  | some imageScore =>
    cases hts : cosineSimilarity c.embedding qt with
    | none =>
      rw [his, hts] at hr
      cases hr
    | some textScore =>
      rw [his, hts] at hr
      simp only [Option.some.injEq] at hr
      subst hr
      simp only [hw]
      constructor
      · simp [div_one]
      · exact ⟨clamp01_nonneg _, clamp01_le_one zero_le_one _⟩

theorem l2norm_unit_x : l2norm [(1 : ℝ), 0] = 1 := by
  simp [l2norm, dot]

theorem cosine_unit_x_self : cosineSimilarity [(1 : ℝ), 0] [1, 0] = some 1 := by
  unfold cosineSimilarity
  rw [if_pos rfl]
  rw [l2norm_unit_x]
  rw [if_neg (by norm_num)]
  simp [dot]

theorem scoreOne_eval_all_signals :
    scoreOne (⟨QueryMode.Hybrid, some [1, 0], some [1, 0], 1/2, 1/2⟩ : QueryContext)
        (⟨1, 0, 0⟩ : ScoringWeights) (some "red")
        (⟨"c1", [(1 : ℝ), 0], some "red", none, none⟩ : Candidate ℝ) =
      some ⟨⟨"c1", [(1 : ℝ), 0], some "red", none, none⟩, 1, 1, 1, 1⟩ := by
  simp only [scoreOne, cosine_unit_x_self, Option.isSome_some, if_true, includedWeightSum,
    colorSimilarity]
  norm_num [clamp01]

theorem scoreOne_final_clamped_witness :
    ((⟨⟨"c1", [(1 : ℝ), 0], some "red", none, none⟩, 1, 1, 1, 1⟩ : ScoredResult ℝ).final_score =
      clamp01 (((1 : ℚ) : ℝ) *
          (⟨⟨"c1", [(1 : ℝ), 0], some "red", none, none⟩, 1, 1, 1, 1⟩ : ScoredResult ℝ).image_score +
        ((0 : ℚ) : ℝ) *
          (⟨⟨"c1", [(1 : ℝ), 0], some "red", none, none⟩, 1, 1, 1, 1⟩ : ScoredResult ℝ).text_score +
        ((0 : ℚ) : ℝ) *
          (⟨⟨"c1", [(1 : ℝ), 0], some "red", none, none⟩, 1, 1, 1, 1⟩ : ScoredResult ℝ).metadata_score)) ∧
    0 ≤ (⟨⟨"c1", [(1 : ℝ), 0], some "red", none, none⟩, 1, 1, 1, 1⟩ : ScoredResult ℝ).final_score ∧
    (⟨⟨"c1", [(1 : ℝ), 0], some "red", none, none⟩, 1, 1, 1, 1⟩ : ScoredResult ℝ).final_score ≤ 1 :=
  scoreOne_final_clamped
    (⟨QueryMode.Hybrid, some [1, 0], some [1, 0], 1/2, 1/2⟩ : QueryContext)
    (⟨1, 0, 0⟩ : ScoringWeights) "red" [1, 0] [1, 0]
    (⟨"c1", [(1 : ℝ), 0], some "red", none, none⟩ : Candidate ℝ)
    (⟨⟨"c1", [(1 : ℝ), 0], some "red", none, none⟩, 1, 1, 1, 1⟩ : ScoredResult ℝ)
    rfl rfl (by norm_num) scoreOne_eval_all_signals

theorem cosine_unit_x_neg : cosineSimilarity [(-1 : ℝ), 0] [1, 0] = some (-1) := by
  unfold cosineSimilarity
  rw [if_pos (by simp)]
  have hn : l2norm [(-1 : ℝ), 0] = 1 := by
    norm_num [l2norm, dot]
  rw [hn, l2norm_unit_x]
  rw [if_neg (by norm_num)]
  norm_num [dot]

/-- Claim C3 counterexample: on a TextOnly query with no target color, a
candidate whose cosine similarity against the text query vector is negative
gets final score 0 (after clamping to the unit interval), not its text score
of -1 — so the final score does not equal the text score for every candidate. -/
theorem scoreOne_textOnly_counterexample :
    scoreOne (⟨QueryMode.TextOnly, some [1, 0], none, 1/2, 1/2⟩ : QueryContext)
        (⟨6/10, 2/10, 2/10⟩ : ScoringWeights) none
        (⟨"c1", [(-1 : ℝ), 0], none, none, none⟩ : Candidate ℝ) =
      some ⟨⟨"c1", [(-1 : ℝ), 0], none, none, none⟩, 0, -1, 0, 0⟩ ∧
    (0 : ℝ) ≠ -1 := by
  constructor
  · simp only [scoreOne, cosine_unit_x_neg, Option.isSome_some, Option.isSome_none,
      includedWeightSum, colorSimilarity]
    norm_num [clamp01]
  · norm_num

/-- Claim C3 (amended): for every TextOnly query with no image embedding, no
target color and nonzero text weight, the effective weights renormalize to
text alone, and the final score equals the candidate text score exactly
whenever that text score already lies in the unit interval (outside it, the
clamp of the spec applies). -/
theorem scoreOne_textOnly_text_score (ctx : QueryContext) (w : ScoringWeights)
    (qt : List ℝ) (c : Candidate ℝ) (r : ScoredResult ℝ)
    (hqt : ctx.text_embedding = some qt) (hqi : ctx.image_embedding = none)
    (htw : w.text_weight ≠ 0)
    (hr : scoreOne ctx w none c = some r)
    (h0 : 0 ≤ r.text_score) (h1 : r.text_score ≤ 1) :
    r.final_score = r.text_score := by
  simp only [scoreOne, hqi, hqt, Option.isSome_some, Option.isSome_none,
    includedWeightSum] at hr
  cases hts : cosineSimilarity c.embedding qt with
  | none =>
    rw [hts] at hr
    cases hr
  | some textScore =>
    rw [hts] at hr
    simp only [Option.some.injEq] at hr
    subst hr
    simp only at h0 h1 ⊢
    have htw2 : ((w.text_weight : ℚ) : ℝ) ≠ 0 := by exact_mod_cast htw
    rw [clamp01_of_mem]
    · push_cast
      rw [zero_add, add_zero, div_self htw2]
      ring
    · push_cast
      rw [zero_add, add_zero, div_self htw2]
      simpa using h0
    · push_cast
      rw [zero_add, add_zero, div_self htw2]
      simpa using h1

theorem scoreOne_eval_textOnly :
    scoreOne (⟨QueryMode.TextOnly, some [1, 0], none, 1/2, 1/2⟩ : QueryContext)
        (⟨6/10, 2/10, 2/10⟩ : ScoringWeights) none
        (⟨"c1", [(1 : ℝ), 0], none, none, none⟩ : Candidate ℝ) =
      some ⟨⟨"c1", [(1 : ℝ), 0], none, none, none⟩, 0, 1, 0, 1⟩ := by
  simp only [scoreOne, cosine_unit_x_self, Option.isSome_some, Option.isSome_none,
    includedWeightSum]
  norm_num [clamp01]

theorem scoreOne_textOnly_text_score_witness :
    (⟨⟨"c1", [(1 : ℝ), 0], none, none, none⟩, 0, 1, 0, 1⟩ : ScoredResult ℝ).final_score =
      (⟨⟨"c1", [(1 : ℝ), 0], none, none, none⟩, 0, 1, 0, 1⟩ : ScoredResult ℝ).text_score :=
  scoreOne_textOnly_text_score
    (⟨QueryMode.TextOnly, some [1, 0], none, 1/2, 1/2⟩ : QueryContext)
    (⟨6/10, 2/10, 2/10⟩ : ScoringWeights) [1, 0]
    (⟨"c1", [(1 : ℝ), 0], none, none, none⟩ : Candidate ℝ)
    (⟨⟨"c1", [(1 : ℝ), 0], none, none, none⟩, 0, 1, 0, 1⟩ : ScoredResult ℝ)
    rfl rfl (by norm_num) scoreOne_eval_textOnly (by norm_num) (by norm_num)

end ImageSearch
